import Mathlib

/-!
Shallow embedding of the @n8n/ai-node-sdk package (TypeScript sources under
packages/@n8n/ai-node-sdk/src): message types, the LangChain chat-history and
chat-model adapters, the tool-conversion utilities, and the memory / chat-model
factories. JavaScript numbers only ever flow through these functions unchanged,
so they are modelled as integers; JSON values are modelled by the inductive
type JsonVal below.
-/

/-- Model of a JavaScript JSON value. Numbers are modelled as integers since the
SDK code never computes with them, only carries them through. -/
inductive JsonVal where
| null : JsonVal
| bool (b : Bool) : JsonVal
| num (n : Int) : JsonVal
| str (s : String) : JsonVal
| arr (xs : List JsonVal) : JsonVal
| obj (fields : List (String × JsonVal)) : JsonVal
deriving Repr

/-- Left-brace character, written via its code point. -/
def lbraceChar : Char := Char.ofNat 123

/-- Right-brace character, written via its code point. -/
def rbraceChar : Char := Char.ofNat 125

/-- Double-quote character. -/
def quoteChar : Char := Char.ofNat 34

/-- Backslash character. -/
def backslashChar : Char := Char.ofNat 92

/-- Escape one character for a JSON string literal, as JSON.stringify does. -/
def escapeJsonChar (c : Char) : List Char :=
  if c = quoteChar then [backslashChar, quoteChar]
  else if c = backslashChar then [backslashChar, backslashChar]
  else if c = Char.ofNat 10 then [backslashChar, 'n']
  else if c = Char.ofNat 13 then [backslashChar, 'r']
  else if c = Char.ofNat 9 then [backslashChar, 't']
  else [c]

/-- Quote and escape a string as a JSON string literal. -/
def quoteJsonString (s : String) : String :=
  String.mk ([quoteChar] ++ (s.toList.map escapeJsonChar).flatten ++ [quoteChar])

mutual

/-- Model of JSON.stringify on JsonVal. -/
def jsonStringify : JsonVal → String
| JsonVal.null => "null"
| JsonVal.bool b => if b then "true" else "false"
| JsonVal.num n => toString n
| JsonVal.str s => quoteJsonString s
| JsonVal.arr xs => "[" ++ jsonStringifyList xs ++ "]"
| JsonVal.obj fields =>
    String.mk [lbraceChar] ++ jsonStringifyFields fields ++ String.mk [rbraceChar]

/-- Comma-separated stringification of a JSON array body. -/
def jsonStringifyList : List JsonVal → String
| [] => ""
| [x] => jsonStringify x
| x :: xs => jsonStringify x ++ "," ++ jsonStringifyList xs

/-- Comma-separated stringification of a JSON object body. -/
def jsonStringifyFields : List (String × JsonVal) → String
| [] => ""
| [(k, v)] => quoteJsonString k ++ ":" ++ jsonStringify v
| (k, v) :: fs => quoteJsonString k ++ ":" ++ jsonStringify v ++ "," ++ jsonStringifyFields fs

end

example : jsonStringify (JsonVal.obj [("a", JsonVal.num 1)]) = "\x7b\"a\":1\x7d" := by rfl

/-- Whitespace predicate of the JSON grammar. -/
def isJsonWs (c : Char) : Bool :=
  c = ' ' || c = Char.ofNat 9 || c = Char.ofNat 10 || c = Char.ofNat 13

/-- Skip leading JSON whitespace. -/
def skipJsonWs : List Char → List Char
| [] => []
| c :: cs => if isJsonWs c then skipJsonWs cs else c :: cs

/-- Parse the body of a JSON string literal after the opening quote; returns the
decoded characters and the remaining input. Unicode escapes are outside the
modelled fragment. -/
def parseJsonStringChars : Nat → List Char → Option (List Char × List Char)
| 0, _ => none
| Nat.succ _, [] => none
| Nat.succ fuel, c :: cs =>
  if c = quoteChar then some ([], cs)
  else if c = backslashChar then
    match cs with
    | [] => none
    | e :: cs2 =>
      let decoded : Option Char :=
        if e = quoteChar then some quoteChar
        else if e = backslashChar then some backslashChar
        else if e = '/' then some '/'
        else if e = 'n' then some (Char.ofNat 10)
        else if e = 'r' then some (Char.ofNat 13)
        else if e = 't' then some (Char.ofNat 9)
        else if e = 'b' then some (Char.ofNat 8)
        else if e = 'f' then some (Char.ofNat 12)
        else none
      match decoded with
      | none => none
      | some d =>
        match parseJsonStringChars fuel cs2 with
        | none => none
        | some (s, r) => some (d :: s, r)
  else if c.toNat < 32 then none
  else
    match parseJsonStringChars fuel cs with
    | none => none
    | some (s, r) => some (c :: s, r)

/-- Parse a nonempty run of decimal digits into a natural number. -/
def parseJsonDigits (cs : List Char) : Option (Nat × List Char) :=
  let digits := cs.takeWhile Char.isDigit
  let rest := cs.dropWhile Char.isDigit
  if digits = [] then none
  else some (digits.foldl (fun a c => a * 10 + (c.toNat - 48)) 0, rest)

mutual

/-- Fuel-based parser for a JSON value; models JSON.parse on the fragment used
by the SDK (integers instead of general numbers, no unicode escapes). -/
def parseJsonValue : Nat → List Char → Option (JsonVal × List Char)
| 0, _ => none
| Nat.succ fuel, cs0 =>
  match skipJsonWs cs0 with
  | [] => none
  | c :: rest =>
    if c = quoteChar then
      match parseJsonStringChars (Nat.succ fuel) rest with
      | none => none
      | some (s, r) => some (JsonVal.str (String.mk s), r)
    else if c = 'n' then
      match rest with
      | 'u' :: 'l' :: 'l' :: r => some (JsonVal.null, r)
      | _ => none
    else if c = 't' then
      match rest with
      | 'r' :: 'u' :: 'e' :: r => some (JsonVal.bool true, r)
      | _ => none
    else if c = 'f' then
      match rest with
      | 'a' :: 'l' :: 's' :: 'e' :: r => some (JsonVal.bool false, r)
      | _ => none
    else if c = '[' then
      match skipJsonWs rest with
      | ']' :: r => some (JsonVal.arr [], r)
      | cs1 =>
        match parseJsonElems fuel cs1 with
        | none => none
        | some (xs, r) => some (JsonVal.arr xs, r)
    else if c = lbraceChar then
      match skipJsonWs rest with
      | [] => none
      | d :: r =>
        if d = rbraceChar then some (JsonVal.obj [], r)
        else
          match parseJsonMembers fuel (d :: r) with
          | none => none
          | some (fs, r2) => some (JsonVal.obj fs, r2)
    else if c = '-' then
      match parseJsonDigits rest with
      | none => none
      | some (n, r) => some (JsonVal.num (-(n : Int)), r)
    else if c.isDigit then
      match parseJsonDigits (c :: rest) with
      | none => none
      | some (n, r) => some (JsonVal.num (n : Int), r)
    else none

/-- Parse the elements of a nonempty JSON array body up to the closing bracket. -/
def parseJsonElems : Nat → List Char → Option (List JsonVal × List Char)
| 0, _ => none
| Nat.succ fuel, cs =>
  match parseJsonValue fuel cs with
  | none => none
  | some (v, r) =>
    match skipJsonWs r with
    | ',' :: r2 =>
      match parseJsonElems fuel r2 with
      | none => none
      | some (xs, r3) => some (v :: xs, r3)
    | ']' :: r2 => some ([v], r2)
    | _ => none

/-- Parse the members of a nonempty JSON object body up to the closing brace. -/
def parseJsonMembers : Nat → List Char → Option (List (String × JsonVal) × List Char)
| 0, _ => none
| Nat.succ fuel, cs =>
  match skipJsonWs cs with
  | [] => none
  | c :: r =>
    if c = quoteChar then
      match parseJsonStringChars (Nat.succ fuel) r with
      | none => none
      | some (key, r2) =>
        match skipJsonWs r2 with
        | ':' :: r3 =>
          match parseJsonValue fuel r3 with
          | none => none
          | some (v, r4) =>
            match skipJsonWs r4 with
            | [] => none
            | d :: r5 =>
              if d = ',' then
                match parseJsonMembers fuel r5 with
                | none => none
                | some (fs, r6) => some ((String.mk key, v) :: fs, r6)
              else if d = rbraceChar then some ([(String.mk key, v)], r5)
              else none
        | _ => none
    else none

end

/-- Model of JSON.parse: parse a complete JSON value with no trailing garbage,
or fail with a syntax error. -/
def jsonParse (s : String) : Except String JsonVal :=
  match parseJsonValue (s.length + 1) s.toList with
  | none => Except.error "SyntaxError"
  | some (v, rest) =>
    if skipJsonWs rest = [] then Except.ok v else Except.error "SyntaxError"

/-- Translation of parseToolArguments (utils/toolConversion.ts): JSON.parse in a
try block; the catch branch logs the bad input and returns the empty object, so
no exception escapes. -/
def parseToolArguments (argumentsString : String) : JsonVal :=
  match jsonParse argumentsString with
  | Except.ok v => v
  | Except.error _ => JsonVal.obj []

example : jsonParse "\x7b\"a\":[1,true,null]\x7d" =
    Except.ok (JsonVal.obj [("a", JsonVal.arr [JsonVal.num 1, JsonVal.bool true, JsonVal.null])]) := by rfl

example : parseToolArguments "not json" = JsonVal.obj [] := by rfl

/-- Message roles of the SDK (types/messages.ts MessageRole). -/
inductive MessageRole where
| system
| user
| assistant
| tool
deriving Repr, DecidableEq

/-- Content blocks of an SDK message (types/messages.ts ContentBlock). Each
message carries exactly one block. FileContent data may be a base64 string or
raw bytes. -/
inductive ContentBlock where
| text (text : String) (metadata : Option JsonVal)
| reasoning (text : String) (metadata : Option JsonVal)
| file (mediaType : String) (data : String ⊕ List Nat) (metadata : Option JsonVal)
| toolCall (toolCallId : String) (toolName : String) (input : String) (metadata : Option JsonVal)
| toolResult (toolCallId : String) (result : JsonVal) (isError : Option Bool) (metadata : Option JsonVal)
deriving Repr

/-- SDK Message (types/messages.ts): a role, one content block, optional name. -/
structure Message where
  role : MessageRole
  content : ContentBlock
  name : Option String := none
deriving Repr

/-- Helper textMessage from types/messages.ts. -/
def textMessage (role : MessageRole) (text : String) : Message :=
  { role := role, content := ContentBlock.text text none }

/-- Helper toolResultMessage from types/messages.ts; isError defaults to false
and is always written into the content block. -/
def toolResultMessage (toolCallId : String) (result : JsonVal) (isError : Bool := false) : Message :=
  { role := MessageRole.tool
    content := ContentBlock.toolResult toolCallId result (some isError) none }

/-- Blocks that can occur in LangChain array message content, as declared in
chatModelAdapter.ts (ContentBlock = string | TextBlock | ToolUseBlock). -/
inductive LCBlock where
| str (s : String)
| text (text : String)
| toolUse (id : String) (name : String) (input : JsonVal)
deriving Repr

/-- LangChain message content: a plain string or an array of blocks. -/
inductive LCContent where
| str (s : String)
| arr (blocks : List LCBlock)
deriving Repr

/-- Model of a LangChain BaseMessage: the dynamic type tag returned by getType,
the content, and the tool call id carried by ToolMessage. -/
structure LCMessage where
  type : String
  content : LCContent
  toolCallId : Option String := none
deriving Repr

/-- LangChain SystemMessage over a plain string. -/
def SystemMessage (s : String) : LCMessage :=
  { type := "system", content := LCContent.str s }

/-- LangChain HumanMessage over a plain string. -/
def HumanMessage (s : String) : LCMessage :=
  { type := "human", content := LCContent.str s }

/-- LangChain AIMessage over a plain string. -/
def AIMessage (s : String) : LCMessage :=
  { type := "ai", content := LCContent.str s }

/-- LangChain ToolMessage: string content plus a tool call id. -/
def ToolMessage (content : String) (toolCallId : String) : LCMessage :=
  { type := "tool", content := LCContent.str content, toolCallId := some toolCallId }

/-- Optional metadata field of a content block as a JSON object fragment;
JSON.stringify skips absent fields. -/
def metaField (md : Option JsonVal) : List (String × JsonVal) :=
  match md with
  | none => []
  | some v => [("metadata", v)]

/-- JSON view of an SDK content block, fields in declaration order, used where
the adapters call JSON.stringify on message content. -/
def contentBlockToJson : ContentBlock → JsonVal
| ContentBlock.text t md =>
    JsonVal.obj ([("type", JsonVal.str "text"), ("text", JsonVal.str t)] ++ metaField md)
| ContentBlock.reasoning t md =>
    JsonVal.obj ([("type", JsonVal.str "reasoning"), ("text", JsonVal.str t)] ++ metaField md)
| ContentBlock.file mediaType data md =>
    JsonVal.obj ([("type", JsonVal.str "file"), ("mediaType", JsonVal.str mediaType),
      ("data", match data with
        | Sum.inl s => JsonVal.str s
        | Sum.inr bs => JsonVal.arr (bs.map fun b => JsonVal.num (b : Int)))] ++ metaField md)
| ContentBlock.toolCall id name input md =>
    JsonVal.obj ([("type", JsonVal.str "tool-call"), ("toolCallId", JsonVal.str id),
      ("toolName", JsonVal.str name), ("input", JsonVal.str input)] ++ metaField md)
| ContentBlock.toolResult id result isError md =>
    JsonVal.obj ([("type", JsonVal.str "tool-result"), ("toolCallId", JsonVal.str id),
      ("result", result)] ++
      (match isError with
       | none => []
       | some b => [("isError", JsonVal.bool b)]) ++ metaField md)

/-- Translation of sdkMessageToLangChain (chatHistoryAdapter.ts lines 21-46):
text blocks keep their text, other blocks are stringified; tool-result content
under role tool becomes a ToolMessage whose content is the result (stringified
unless already a string); any other tool-role content becomes an AIMessage. The
switch default is unreachable for the closed MessageRole type. -/
def sdkMessageToLangChain (message : Message) : LCMessage :=
  let text : String :=
    match message.content with
    | ContentBlock.text t _ => t
    | c => jsonStringify (contentBlockToJson c)
  match message.role with
  | MessageRole.system => SystemMessage text
  | MessageRole.user => HumanMessage text
  | MessageRole.assistant => AIMessage text
  | MessageRole.tool =>
    match message.content with
    | ContentBlock.toolResult toolCallId result _ _ =>
        ToolMessage
          (match result with
           | JsonVal.str s => s
           | r => jsonStringify r)
          toolCallId
    | _ => AIMessage text

/-- JSON view of a LangChain content block, used by langChainMessageToSdk when
it stringifies non-string content. -/
def lcBlockToJson : LCBlock → JsonVal
| LCBlock.str s => JsonVal.str s
| LCBlock.text t => JsonVal.obj [("type", JsonVal.str "text"), ("text", JsonVal.str t)]
| LCBlock.toolUse id name input =>
    JsonVal.obj [("type", JsonVal.str "tool_use"), ("id", JsonVal.str id),
      ("name", JsonVal.str name), ("input", input)]

/-- Translation of langChainMessageToSdk (chatHistoryAdapter.ts lines 51-79):
map the dynamic type tag to an SDK role (defaulting to user), and wrap the
content (stringified when not a plain string) in a single text block. -/
def langChainMessageToSdk (message : LCMessage) : Message :=
  let role : MessageRole :=
    if message.type = "system" then MessageRole.system
    else if message.type = "human" then MessageRole.user
    else if message.type = "ai" then MessageRole.assistant
    else if message.type = "tool" then MessageRole.tool
    else MessageRole.user
  let content : String :=
    match message.content with
    | LCContent.str s => s
    | LCContent.arr blocks => jsonStringify (JsonVal.arr (blocks.map lcBlockToJson))
  { role := role, content := ContentBlock.text content none }

/-- Model of a backing SDK ChatHistory implementation (types/memory.ts): the
stored transcript is the state; addMessage may mutate the state and either
succeed (true) or fail with a thrown error (false), in which case its state
mutation is whatever the implementation performed before throwing; addMessages
is the optional native batch append. -/
structure ChatHistoryImpl where
  addMessage : Message → List Message → List Message × Bool
  addMessages : Option (List Message → List Message → List Message × Bool)

/-- Fallback batch append built in the ChatHistoryAdapter constructor
(chatHistoryAdapter.ts lines 94-101) when the backing history lacks a native
addMessages: append one message at a time; a failing addMessage rethrows,
leaving the appends already performed in place. -/
def fallbackAddMessages (h : ChatHistoryImpl) : List Message → List Message → List Message × Bool
| [], st => (st, true)
| m :: ms, st =>
  match h.addMessage m st with
  | (st2, true) => fallbackAddMessages h ms st2
  | (st2, false) => (st2, false)

/-- The addMessages function the ChatHistoryAdapter constructor stores: the
native one when present, the per-message fallback otherwise. -/
def addMessagesFn (h : ChatHistoryImpl) : List Message → List Message → List Message × Bool :=
  match h.addMessages with
  | some f => f
  | none => fallbackAddMessages h

/-- Translation of ChatHistoryAdapter.addMessages (chatHistoryAdapter.ts lines
122-125): convert the LangChain batch to SDK messages and run the stored
addMessages function against the backing store. -/
def ChatHistoryAdapter.addMessages (h : ChatHistoryImpl) (messages : List LCMessage)
    (st : List Message) : List Message × Bool :=
  addMessagesFn h (messages.map langChainMessageToSdk) st

/-- State after applying the first messages of a batch one addMessage call at a
time, ignoring success flags; used to describe partial effects of the fallback. -/
def applyMessages (h : ChatHistoryImpl) (ms : List Message) (st : List Message) : List Message :=
  ms.foldl (fun s m => (h.addMessage m s).1) st

/-- Token usage statistics (types/results.ts TokenUsage). -/
structure TokenUsage where
  promptTokens : Int
  completionTokens : Int
  totalTokens : Int
deriving Repr, DecidableEq

/-- Finish reasons of a generation (types/results.ts). -/
inductive FinishReason where
| stop
| length
| contentFilter
| toolCalls
| error
| other
deriving Repr, DecidableEq

/-- Tool call made by the model (types/tools.ts ToolCall). -/
structure ToolCall where
  id : String
  name : String
  arguments : JsonVal
  argumentsRaw : Option String := none
deriving Repr

/-- Tool definition (types/tools.ts Tool); parameters are a JSON schema value.
The optional execute callback is never invoked by the adapters and is not
modelled. -/
structure Tool where
  name : String
  description : Option String := none
  parameters : JsonVal
  strict : Option Bool := none
deriving Repr

/-- Result of a chat model generation (types/results.ts GenerateResult). -/
structure GenerateResult where
  id : Option String := none
  text : String
  finishReason : Option FinishReason := none
  usage : Option TokenUsage := none
  toolCalls : Option (List ToolCall) := none
  rawResponse : Option JsonVal := none
deriving Repr

/-- Discriminator of a streaming chunk (types/results.ts StreamChunk.type). -/
inductive ChunkType where
| textDelta
| toolCallDelta
| finish
| error
deriving Repr, DecidableEq

/-- Partial tool call carried by a streaming chunk. -/
structure ToolCallDelta where
  id : Option String := none
  name : Option String := none
  argumentsDelta : Option String := none
deriving Repr

/-- Streaming chunk from a chat model (types/results.ts StreamChunk). -/
structure StreamChunk where
  type : ChunkType
  textDelta : Option String := none
  toolCallDelta : Option ToolCallDelta := none
  finishReason : Option String := none
  usage : Option TokenUsage := none
  error : Option JsonVal := none
deriving Repr

/-- Generation configuration built by the adapter (types/chatModel.ts
ChatModelConfig). The abortSignal and providerOptions fields are opaque to the
adapter and not modelled. -/
structure ChatModelConfig where
  maxTokens : Option Int := none
  temperature : Option Int := none
  topP : Option Int := none
  topK : Option Int := none
  presencePenalty : Option Int := none
  frequencyPenalty : Option Int := none
  stopSequences : Option (List String) := none
  seed : Option Int := none
  timeout : Option Int := none
  maxRetries : Option Int := none
  headers : Option (List (String × String)) := none
  tools : Option (List Tool) := none
deriving Repr

/-- Custom chat model options (types/chatModel.ts CustomChatModelOptions): a
name, the pluggable generate function (a rejected promise is an error value),
and the optional stream function producing a finite chunk sequence. The
optional withTools hook is never read by the adapter and is not modelled. -/
structure CustomChatModelOptions where
  name : String
  generate : List Message → ChatModelConfig → Except String GenerateResult
  stream : Option (List Message → ChatModelConfig → List StreamChunk) := none

/-- Call options passed by LangChain into the generate and stream entry points;
the adapter reads max_tokens, temperature and stop. -/
structure ParsedCallOptions where
  max_tokens : Option Int := none
  temperature : Option Int := none
  stop : Option (List String) := none
deriving Repr

/-- Translation of langChainRoleToSdkRole (chatModelAdapter.ts lines 83-96). -/
def langChainRoleToSdkRole (type : String) : MessageRole :=
  if type = "system" then MessageRole.system
  else if type = "human" then MessageRole.user
  else if type = "ai" then MessageRole.assistant
  else if type = "tool" then MessageRole.tool
  else MessageRole.user

/-- Per-block conversion performed by the array branch of convertToSdkMessage:
strings and text blocks keep the outer role, tool_use blocks are forced to role
assistant with stringified input. -/
def lcBlockToSdkMessage (role : MessageRole) : LCBlock → Message
| LCBlock.str s => { role := role, content := ContentBlock.text s none }
| LCBlock.text t => { role := role, content := ContentBlock.text t none }
| LCBlock.toolUse id name input =>
  { role := MessageRole.assistant
    content := ContentBlock.toolCall id name (jsonStringify input) none }

/-- Translation of convertToSdkMessage (chatModelAdapter.ts lines 33-78):
string content becomes one text message; array content converts block by block,
an empty result is replaced by one empty text message and a singleton is
unwrapped. The trailing default branch of the source is unreachable for the
declared content type. -/
def convertToSdkMessage (msg : LCMessage) : Message ⊕ List Message :=
  let role := langChainRoleToSdkRole msg.type
  match msg.content with
  | LCContent.str s => Sum.inl { role := role, content := ContentBlock.text s none }
  | LCContent.arr blocks =>
    let messages := blocks.map (lcBlockToSdkMessage role)
    match messages with
    | [] => Sum.inl { role := role, content := ContentBlock.text "" none }
    | [m] => Sum.inl m
    | ms => Sum.inr ms

/-- Elaboration of messages.flatMap(convertToSdkMessage): a single message
contributes itself, an array contributes its elements in order. -/
def convertToSdkMessages (msg : LCMessage) : List Message :=
  match convertToSdkMessage msg with
  | Sum.inl m => [m]
  | Sum.inr ms => ms

/-- Tool call on a LangChain AIMessage (id, name, parsed args). -/
structure LCToolCall where
  id : String
  name : String
  args : JsonVal
deriving Repr

/-- Usage metadata attached to a LangChain AIMessage. -/
structure UsageMetadata where
  input_tokens : Int
  output_tokens : Int
  total_tokens : Int
deriving Repr, DecidableEq

/-- Model of the LangChain AIMessage built by convertToLangChainResult; the
response metadata records only the model id. -/
structure AIResultMessage where
  content : String
  tool_calls : Option (List LCToolCall)
  usage_metadata : Option UsageMetadata
  response_metadata_model : String
  id : Option String
deriving Repr

/-- One generation of a LangChain ChatResult. -/
structure ChatGeneration where
  text : String
  message : AIResultMessage
deriving Repr

/-- llmOutput object of a LangChain ChatResult. -/
structure LlmOutput where
  tokenUsage : Option TokenUsage
  finishReason : Option FinishReason
deriving Repr

/-- Model of a LangChain ChatResult. -/
structure ChatResult where
  generations : List ChatGeneration
  llmOutput : LlmOutput
deriving Repr

/-- Translation of convertToLangChainResult (chatModelAdapter.ts lines 101-134):
one generation whose message copies text, tool calls, usage and response id,
and an llmOutput carrying the usage and finish reason. -/
def convertToLangChainResult (result : GenerateResult) (modelId : String) : ChatResult :=
  let aiMessage : AIResultMessage :=
    { content := result.text
      tool_calls := result.toolCalls.map (List.map fun tc =>
        { id := tc.id, name := tc.name, args := tc.arguments })
      usage_metadata := result.usage.map fun u =>
        { input_tokens := u.promptTokens
          output_tokens := u.completionTokens
          total_tokens := u.totalTokens }
      response_metadata_model := modelId
      id := result.id }
  { generations := [{ text := result.text, message := aiMessage }]
    llmOutput := { tokenUsage := result.usage, finishReason := result.finishReason } }

/-- State of a ChatModelAdapter instance: the custom options it wraps and the
tools bound so far (chatModelAdapter.ts lines 139-146). -/
structure ChatModelAdapter where
  options : CustomChatModelOptions
  boundTools : List Tool := []

/-- Config object built by the generate and streaming entry points from the
call options and the bound tools (tools only when at least one is bound). -/
def buildCallConfig (opts : ParsedCallOptions) (boundTools : List Tool) : ChatModelConfig :=
  { maxTokens := opts.max_tokens
    temperature := opts.temperature
    stopSequences := opts.stop
    tools := if boundTools.length > 0 then some boundTools else none }

/-- Translation of ChatModelAdapter.generate (chatModelAdapter.ts lines
156-178): convert the messages, build the config, call the pluggable generate
function once and convert its result; a rejected generate call surfaces
unchanged. -/
def ChatModelAdapter.generate (a : ChatModelAdapter) (messages : List LCMessage)
    (options : ParsedCallOptions) : Except String ChatResult :=
  let sdkMessages := (messages.map convertToSdkMessages).flatten
  let config := buildCallConfig options a.boundTools
  match a.options.generate sdkMessages config with
  | Except.error e => Except.error e
  | Except.ok result => Except.ok (convertToLangChainResult result a.options.name)

/-- Model of the AIMessageChunk the streaming path builds: only content is set,
so a chunk never carries tool call chunks or usage metadata. -/
structure AIMessageChunkModel where
  content : String
  tool_call_chunks : List ToolCallDelta := []
  usage_metadata : Option UsageMetadata := none
deriving Repr

/-- One chunk yielded by the streaming entry point; the source constructs it
from a message and a text only, so the generation info (where LangChain places
a finish reason) stays empty. -/
structure ChatGenerationChunk where
  message : AIMessageChunkModel
  text : String
  generationInfo_finishReason : Option FinishReason := none
deriving Repr

/-- Translation of ChatModelAdapter.streamResponseChunks (chatModelAdapter.ts
lines 180-220), with the yielded generator collected into a list. Without a
stream function it falls back to one chunk holding the generate text; with one
it yields one chunk per text-delta chunk whose textDelta is truthy (present and
nonempty), dropping every other chunk kind. The run manager token callback is a
logging side effect and is not modelled. -/
def ChatModelAdapter.streamResponseChunks (a : ChatModelAdapter) (messages : List LCMessage)
    (options : ParsedCallOptions) : Except String (List ChatGenerationChunk) :=
  match a.options.stream with
  | none =>
    match a.generate messages options with
    | Except.error e => Except.error e
    | Except.ok result =>
      let text := ((result.generations.head?).map ChatGeneration.text).getD ""
      Except.ok [{ message := { content := text }, text := text }]
  | some streamFn =>
    let sdkMessages := (messages.map convertToSdkMessages).flatten
    let config := buildCallConfig options a.boundTools
    Except.ok ((streamFn sdkMessages config).filterMap fun chunk =>
      match chunk.type, chunk.textDelta with
      | ChunkType.textDelta, some d =>
        if d = "" then none
        else some { message := { content := d }, text := d }
      | _, _ => none)

/-- Translation of ChatModelAdapter.bindTools (chatModelAdapter.ts lines
222-226): build a fresh adapter over the same options whose bound tools are the
receiver's followed by the new ones; the receiver is left untouched. -/
def ChatModelAdapter.bindTools (a : ChatModelAdapter) (tools : List Tool) : ChatModelAdapter :=
  { options := a.options, boundTools := a.boundTools ++ tools }

/-- Invocation-counting embedding of ChatModelAdapter.generate: the pluggable
generate function is an oracle indexed by how many times it has been called so
far. The body consults the oracle exactly once and maps the outcome; there is
no retry loop around the call, mirroring the single call site in the source. -/
def ChatModelAdapter.generateCounted (name : String)
    (oracle : Nat → List Message → ChatModelConfig → Except String GenerateResult)
    (boundTools : List Tool) (messages : List LCMessage) (options : ParsedCallOptions)
    (calls : Nat) : Except String ChatResult × Nat :=
  let sdkMessages := (messages.map convertToSdkMessages).flatten
  let config := buildCallConfig options boundTools
  match oracle calls sdkMessages config with
  | Except.error e => (Except.error e, calls + 1)
  | Except.ok result => (Except.ok (convertToLangChainResult result name), calls + 1)

/-- Options shared by every memory variant (types/memory.ts BaseMemoryOptions). -/
structure BaseMemoryOptions where
  chatHistory : ChatHistoryImpl
  memoryKey : Option String := none
  inputKey : Option String := none
  outputKey : Option String := none
  returnMessages : Option Bool := none
  humanPrefix : Option String := none
  aiPrefix : Option String := none

/-- Options union for createMemory (types/memory.ts MemoryOptions): full
buffer, fixed window of k recent messages, or token buffer bounded by
maxTokenLimit. -/
inductive MemoryOptions where
| buffer (base : BaseMemoryOptions)
| bufferWindow (base : BaseMemoryOptions) (k : Int)
| tokenBuffer (base : BaseMemoryOptions) (maxTokenLimit : Int)

/-- Configuration handed to the LangChain memory classes by createMemory, after
defaults are filled in; the chat history field holds the backing store wrapped
by the ChatHistoryAdapter. -/
structure MemoryBaseConfig where
  chatHistory : ChatHistoryImpl
  memoryKey : String
  inputKey : String
  outputKey : String
  returnMessages : Bool
  humanPrefix : String
  aiPrefix : String

/-- LangChain memory object returned by createMemory: a BufferMemory or a
BufferWindowMemory with its window size. The source constructs no other class. -/
inductive MemoryInstance where
| bufferMemory (config : MemoryBaseConfig)
| bufferWindowMemory (config : MemoryBaseConfig) (k : Int)

/-- Base config built at factories/memory.ts lines 30-38, with the documented
defaults. -/
def mkBaseConfig (base : BaseMemoryOptions) : MemoryBaseConfig :=
  { chatHistory := BaseMemoryOptions.chatHistory base
    memoryKey := (BaseMemoryOptions.memoryKey base).getD "chat_history"
    inputKey := (BaseMemoryOptions.inputKey base).getD "input"
    outputKey := (BaseMemoryOptions.outputKey base).getD "output"
    returnMessages := (BaseMemoryOptions.returnMessages base).getD true
    humanPrefix := (BaseMemoryOptions.humanPrefix base).getD "Human"
    aiPrefix := (BaseMemoryOptions.aiPrefix base).getD "AI" }

/-- Translation of createMemory (factories/memory.ts lines 26-60): buffer and
tokenBuffer both construct a BufferMemory (the tokenBuffer branch logs a
warning and falls back, per the TODO in the source), bufferWindow constructs a
BufferWindowMemory with its k. The default throw is unreachable for the closed
options union. -/
def createMemory (options : MemoryOptions) : MemoryInstance :=
  match options with
  | MemoryOptions.buffer base => MemoryInstance.bufferMemory (mkBaseConfig base)
  | MemoryOptions.bufferWindow base k => MemoryInstance.bufferWindowMemory (mkBaseConfig base) k
  | MemoryOptions.tokenBuffer base _ => MemoryInstance.bufferMemory (mkBaseConfig base)

/-- Options of the openaiCompatible variant (types/chatModel.ts
OpenAICompatibleModelOptions). Callback hooks and extra client options are
opaque values forwarded unchanged and are not modelled. -/
structure OpenAICompatibleModelOptions where
  apiKey : String
  model : String
  baseUrl : Option String := none
  temperature : Option Int := none
  maxTokens : Option Int := none
  topP : Option Int := none
  frequencyPenalty : Option Int := none
  presencePenalty : Option Int := none
  stopSequences : Option (List String) := none
  timeout : Option Int := none
  maxRetries : Option Int := none
  headers : Option (List (String × String)) := none

/-- Options union for createChatModel (types/chatModel.ts ChatModelOptions). -/
inductive ChatModelOptions where
| openaiCompatible (o : OpenAICompatibleModelOptions)
| custom (o : CustomChatModelOptions)

/-- Model of the ChatOpenAI client constructed for the openaiCompatible
variant, recording the configuration forwarded to it. -/
structure ChatOpenAIModel where
  openAIApiKey : String
  modelName : String
  temperature : Option Int
  maxTokens : Option Int
  topP : Option Int
  frequencyPenalty : Option Int
  presencePenalty : Option Int
  stop : Option (List String)
  timeout : Option Int
  maxRetries : Option Int
  configuration_baseURL : Option String
  configuration_defaultHeaders : Option (List (String × String))

/-- Value returned by createChatModel: an external ChatOpenAI client or a
ChatModelAdapter over the custom options. -/
inductive CreatedChatModel where
| openai (m : ChatOpenAIModel)
| adapter (a : ChatModelAdapter)

/-- Translation of createChatModel (factories/memory.ts second half, lines
97-135): the openaiCompatible variant forwards its configuration, including
maxRetries, to a ChatOpenAI client; the custom variant wraps the options in a
ChatModelAdapter with no retry configuration. The trailing throw is unreachable
for the closed options union. -/
def createChatModel (options : ChatModelOptions) : CreatedChatModel :=
  match options with
  | ChatModelOptions.openaiCompatible o =>
    CreatedChatModel.openai
      { openAIApiKey := o.apiKey
        modelName := o.model
        temperature := o.temperature
        maxTokens := o.maxTokens
        topP := o.topP
        frequencyPenalty := o.frequencyPenalty
        presencePenalty := o.presencePenalty
        stop := o.stopSequences
        timeout := o.timeout
        maxRetries := o.maxRetries
        configuration_baseURL := o.baseUrl
        configuration_defaultHeaders := o.headers }
  | ChatModelOptions.custom o =>
    CreatedChatModel.adapter { options := o, boundTools := [] }

/-- Statement of the streaming refinement in the words of the spec and claim
C2: against any results of the two entry points, the concatenated text deltas
equal the generated text and the aggregate carries the same tool calls, finish
reason and usage as the non-streaming result shape. Aggregation follows the
LangChain chunk-merging convention: texts concatenate, tool call chunks
concatenate, and the last defined usage and finish reason win. -/
def streamAggregatesToGenerate (a : ChatModelAdapter) (messages : List LCMessage)
    (options : ParsedCallOptions) : Prop :=
  ∀ res chunks,
    a.generate messages options = Except.ok res →
    a.streamResponseChunks messages options = Except.ok chunks →
    ∃ g, res.generations = [g] ∧
      String.join (chunks.map ChatGenerationChunk.text) = g.text ∧
      ((chunks.map fun c => c.message.tool_call_chunks).flatten.map fun d => (d.id, d.name)) =
        ((g.message.tool_calls.getD []).map fun tc => (some tc.id, some tc.name)) ∧
      (chunks.filterMap fun c => c.message.usage_metadata).getLast? = g.message.usage_metadata ∧
      (chunks.filterMap ChatGenerationChunk.generationInfo_finishReason).getLast? =
        res.llmOutput.finishReason

/-- Backing history fixture: appends on success, and throws without mutating on
a message whose text is boom. -/
def boomHistory : ChatHistoryImpl :=
  { addMessage := fun m st =>
      match m.content with
      | ContentBlock.text t _ => if t = "boom" then (st, false) else (st ++ [m], true)
      | _ => (st ++ [m], true)
    addMessages := none }

/-- Generate-result fixture with text, a tool call, usage and a finish reason. -/
def sampleResult : GenerateResult :=
  { text := "A"
    finishReason := some FinishReason.toolCalls
    usage := some { promptTokens := 1, completionTokens := 2, totalTokens := 3 }
    toolCalls := some [{ id := "t1", name := "f", arguments := JsonVal.obj [] }] }

/-- Custom model fixture whose non-streaming call returns sampleResult while
its stream yields the single unrelated delta B. -/
def streamMismatchAdapter : ChatModelAdapter :=
  { options :=
      { name := "m"
        generate := fun _ _ => Except.ok sampleResult
        stream := some fun _ _ => [{ type := ChunkType.textDelta, textDelta := some "B" }] } }

/-- Custom model fixture with no stream function; generate returns the text
hello. -/
def fallbackOnlyAdapter : ChatModelAdapter :=
  { options :=
      { name := "m"
        generate := fun _ _ => Except.ok { text := "hello" } } }

/-- Custom model fixture whose generate returns sampleResult, for exercising
the result conversion. -/
def sampleAdapter : ChatModelAdapter :=
  { options :=
      { name := "m"
        generate := fun _ _ => Except.ok sampleResult } }

/-- Oracle fixture for the invocation-counting embedding: the first call fails
with a transient network error, every later call succeeds. -/
def flakyOracle : Nat → List Message → ChatModelConfig → Except String GenerateResult :=
  fun n _ _ => if n = 0 then Except.error "network" else Except.ok { text := "ok" }

/-- Claim C9: parseToolArguments is total and lets no exception escape: on a
string the JSON parser accepts it returns the parsed value (the catch branch
is unreachable), and on a string the parser rejects it returns the empty
object. -/
theorem parseToolArguments_total_behavior (s : String) :
    (∀ v, jsonParse s = Except.ok v → parseToolArguments s = v) ∧
    (∀ e, jsonParse s = Except.error e → parseToolArguments s = JsonVal.obj []) := by
  refine ⟨fun v h => ?_, fun e h => ?_⟩ <;> simp [parseToolArguments, h]

/-- Witness for claim C9 at a valid JSON object and at an invalid string. -/
theorem parseToolArguments_total_behavior_witness :
    parseToolArguments "\x7b\"a\":1\x7d" = JsonVal.obj [("a", JsonVal.num 1)] ∧
    parseToolArguments "nope" = JsonVal.obj [] :=
  ⟨(parseToolArguments_total_behavior "\x7b\"a\":1\x7d").1 (JsonVal.obj [("a", JsonVal.num 1)]) (by rfl),
   (parseToolArguments_total_behavior "nope").2 "SyntaxError" (by rfl)⟩

/-- Claim C10: bindTools is a pure constructor of a fresh adapter, so the
receiver value is untouched; the returned adapter binds the receiver's tools
followed by the argument over the same options, and successive calls
accumulate tools in order. -/
theorem bindTools_accumulates (a : ChatModelAdapter) (ts1 ts2 : List Tool) :
    (a.bindTools ts1).boundTools = a.boundTools ++ ts1 ∧
    (a.bindTools ts1).options = a.options ∧
    ((a.bindTools ts1).bindTools ts2).boundTools = a.boundTools ++ (ts1 ++ ts2) := by
  refine ⟨rfl, rfl, ?_⟩
  simp [ChatModelAdapter.bindTools, List.append_assoc]

/-- Claim C7 (code bug): createMemory on tokenBuffer options ignores
maxTokenLimit and returns exactly the BufferMemory built for plain buffer
options over the same base configuration, instead of a token-budget-trimmed
memory distinct from the buffer policy. -/
theorem createMemory_tokenBuffer_is_buffer (base : BaseMemoryOptions) (limit limit2 : Int) :
    createMemory (MemoryOptions.tokenBuffer base limit) =
      createMemory (MemoryOptions.buffer base) ∧
    createMemory (MemoryOptions.tokenBuffer base limit) =
      createMemory (MemoryOptions.tokenBuffer base limit2) :=
  ⟨rfl, rfl⟩

/-- Counterexample to claim C3 as stated: two tool-result messages that differ
only in the isError flag convert to the same LangChain message, so the flag
does not remain visible after sdkMessageToLangChain. -/
theorem toolResult_isError_dropped :
    sdkMessageToLangChain (toolResultMessage "tc1" (JsonVal.str "out") true) =
      sdkMessageToLangChain (toolResultMessage "tc1" (JsonVal.str "out") false) ∧
    (toolResultMessage "tc1" (JsonVal.str "out") true).content ≠
      (toolResultMessage "tc1" (JsonVal.str "out") false).content := by
  refine ⟨rfl, fun h => ?_⟩
  simp [toolResultMessage] at h

/-- Claim C3 as amended: toolResultMessage writes the isError flag into the
message content block; sdkMessageToLangChain converts such a message into an
ordinary ToolMessage carrying the result (verbatim when it is a string,
stringified otherwise) and the toolCallId — it never treats an error result as
a failure — but the isError flag itself is not propagated into the converted
message. -/
theorem toolResultMessage_conversion (id : String) (r : JsonVal) (e : Bool) :
    (toolResultMessage id r e).content = ContentBlock.toolResult id r (some e) none ∧
    sdkMessageToLangChain (toolResultMessage id r e) =
      ToolMessage
        (match r with
         | JsonVal.str s => s
         | v => jsonStringify v) id := by
  refine ⟨rfl, ?_⟩
  cases r <;> rfl

/-- Claim C8: converting a text message to the LangChain format and back
preserves role and text for the system, user and assistant roles (metadata and
the optional name are reset); a tool-role text message comes back with role
assistant, so the round trip does not preserve the tool role. -/
theorem textMessage_roundTrip (t : String) (md : Option JsonVal) (nm : Option String) :
    (∀ role, role ≠ MessageRole.tool →
      langChainMessageToSdk (sdkMessageToLangChain
        { role := role, content := ContentBlock.text t md, name := nm }) =
        { role := role, content := ContentBlock.text t none }) ∧
    (langChainMessageToSdk (sdkMessageToLangChain
      { role := MessageRole.tool, content := ContentBlock.text t md, name := nm })).role =
      MessageRole.assistant := by
  refine ⟨fun role hr => ?_, rfl⟩
  cases role
  case system => rfl
  case user => rfl
  case assistant => rfl
  case tool => exact absurd rfl hr

/-- Witness for claim C8 at the user role and a concrete string. -/
theorem textMessage_roundTrip_witness :
    langChainMessageToSdk (sdkMessageToLangChain
      { role := MessageRole.user, content := ContentBlock.text "hi" none, name := none }) =
      { role := MessageRole.user, content := ContentBlock.text "hi" none } :=
  (textMessage_roundTrip "hi" none none).1 MessageRole.user (by decide)

/-- Claim C4: an SDK message carries exactly one content block by construction
of the Message type, and convertToSdkMessage preserves that shape for array
content: n blocks yield exactly the n single-block messages obtained block by
block, while an empty array yields one message with an empty text block. -/
theorem convertToSdkMessage_array_shape (type : String) (blocks : List LCBlock)
    (tci : Option String) :
    (blocks = [] →
      convertToSdkMessages { type := type, content := LCContent.arr blocks, toolCallId := tci } =
        [{ role := langChainRoleToSdkRole type, content := ContentBlock.text "" none }]) ∧
    (blocks ≠ [] →
      convertToSdkMessages { type := type, content := LCContent.arr blocks, toolCallId := tci } =
        blocks.map (lcBlockToSdkMessage (langChainRoleToSdkRole type))) := by
  constructor
  · rintro rfl
    rfl
  · intro hne
    cases blocks with
    | nil => exact absurd rfl hne
    | cons b rest =>
      cases rest with
      | nil => rfl
      | cons b2 rest2 => rfl

/-- Witness for claim C4 at a two-block array message. -/
theorem convertToSdkMessage_array_shape_witness :
    convertToSdkMessages
      { type := "ai",
        content := LCContent.arr [LCBlock.text "x", LCBlock.toolUse "t1" "f" JsonVal.null],
        toolCallId := none } =
      [LCBlock.text "x", LCBlock.toolUse "t1" "f" JsonVal.null].map
        (lcBlockToSdkMessage (langChainRoleToSdkRole "ai")) :=
  (convertToSdkMessage_array_shape "ai"
    [LCBlock.text "x", LCBlock.toolUse "t1" "f" JsonVal.null] none).2 (by simp)

/-- Claim C5: whenever the pluggable generate function returns a result, the
adapter invocation yields exactly one generation whose text is the result
text, whose message carries the tool calls one-to-one in order with id, name
and arguments preserved (and the response id), and whose llmOutput carries the
usage and finish reason unchanged. -/
theorem generate_converts_result (a : ChatModelAdapter) (messages : List LCMessage)
    (options : ParsedCallOptions) (r : GenerateResult)
    (h : a.options.generate ((messages.map convertToSdkMessages).flatten)
      (buildCallConfig options a.boundTools) = Except.ok r) :
    ∃ res, a.generate messages options = Except.ok res ∧
      res.generations.length = 1 ∧
      (∀ g ∈ res.generations,
        g.text = r.text ∧
        g.message.content = r.text ∧
        g.message.tool_calls = r.toolCalls.map (List.map fun tc =>
          { id := tc.id, name := tc.name, args := tc.arguments }) ∧
        g.message.id = r.id) ∧
      res.llmOutput.tokenUsage = r.usage ∧
      res.llmOutput.finishReason = r.finishReason := by
  refine ⟨convertToLangChainResult r a.options.name, ?_, rfl, ?_, rfl, rfl⟩
  · simp [ChatModelAdapter.generate, h]
  · intro g hg
    simp only [convertToLangChainResult, List.mem_singleton] at hg
    subst hg
    exact ⟨rfl, rfl, rfl, rfl⟩

/-- Witness for claim C5 at a fixture whose generate returns a result with a
tool call, usage and a finish reason. -/
theorem generate_converts_result_witness :
    ∃ res, ChatModelAdapter.generate sampleAdapter [] {} = Except.ok res ∧
      res.generations.length = 1 ∧
      (∀ g ∈ res.generations,
        g.text = sampleResult.text ∧
        g.message.content = sampleResult.text ∧
        g.message.tool_calls = sampleResult.toolCalls.map (List.map fun tc =>
          { id := tc.id, name := tc.name, args := tc.arguments }) ∧
        g.message.id = sampleResult.id) ∧
      res.llmOutput.tokenUsage = sampleResult.usage ∧
      res.llmOutput.finishReason = sampleResult.finishReason :=
  generate_converts_result sampleAdapter [] {} sampleResult (by rfl)

/-- Counterexample to claim C6 as stated: for the custom variant a first-call
transient failure followed by a second-call success still surfaces the error,
because the adapter consults the pluggable generate exactly once and has no
retry configuration to honor. -/
theorem custom_generate_no_retry :
    (ChatModelAdapter.generateCounted "m" flakyOracle [] [] {} 0).1 =
      Except.error "network" ∧
    (ChatModelAdapter.generateCounted "m" flakyOracle [] [] {} 0).2 = 1 ∧
    flakyOracle 1 [] (buildCallConfig {} []) = Except.ok { text := "ok" } :=
  ⟨rfl, rfl, rfl⟩

/-- Claim C6 as amended: createChatModel forwards maxRetries to the ChatOpenAI
client for the openaiCompatible variant (retries happen inside that external
client); the custom variant carries no retry configuration — its adapter
consults the pluggable generate exactly once per invocation, and a failure of
that single call surfaces unchanged. -/
theorem createChatModel_retry_configuration (o : OpenAICompatibleModelOptions)
    (c : CustomChatModelOptions)
    (oracle : Nat → List Message → ChatModelConfig → Except String GenerateResult)
    (tools : List Tool) (messages : List LCMessage) (options : ParsedCallOptions) (n : Nat) :
    (∃ m, createChatModel (ChatModelOptions.openaiCompatible o) = CreatedChatModel.openai m ∧
      m.maxRetries = o.maxRetries) ∧
    createChatModel (ChatModelOptions.custom c) =
      CreatedChatModel.adapter { options := c, boundTools := [] } ∧
    (ChatModelAdapter.generateCounted c.name oracle tools messages options n).2 = n + 1 ∧
    (∀ e, oracle n ((messages.map convertToSdkMessages).flatten)
        (buildCallConfig options tools) = Except.error e →
      (ChatModelAdapter.generateCounted c.name oracle tools messages options n).1 =
        Except.error e) := by
  refine ⟨⟨_, rfl, rfl⟩, rfl, ?_, ?_⟩
  · cases hx : oracle n ((messages.map convertToSdkMessages).flatten)
      (buildCallConfig options tools) <;>
      simp [ChatModelAdapter.generateCounted, hx]
  · intro e he
    simp [ChatModelAdapter.generateCounted, he]

/-- Witness for claim C6 at the flaky oracle: the single consultation fails
and the error surfaces. -/
theorem createChatModel_retry_configuration_witness :
    (ChatModelAdapter.generateCounted "m" flakyOracle [] [] {} 0).1 =
      Except.error "net" ∨
    (ChatModelAdapter.generateCounted "m" flakyOracle [] [] {} 0).1 =
      Except.error "network" :=
  Or.inr ((createChatModel_retry_configuration { apiKey := "k", model := "g" }
    fallbackOnlyAdapter.options flakyOracle [] [] {} 0).2.2.2 "network" (by rfl))

/-- Helper: the per-message fallback applies addMessage to some prefix of the
batch (all of it exactly when it reports success), so its final state is the
fold of the individual mutations over that prefix. -/
theorem fallbackAddMessages_take (h : ChatHistoryImpl) (ms : List Message) (st : List Message) :
    ∃ k, k ≤ ms.length ∧
      (fallbackAddMessages h ms st).1 = applyMessages h (ms.take k) st ∧
      ((fallbackAddMessages h ms st).2 = true → k = ms.length) := by
  induction ms generalizing st with
  | nil => exact ⟨0, Nat.le_refl 0, rfl, fun _ => rfl⟩
  | cons m rest ih =>
    cases hb : h.addMessage m st with
    | mk st2 b =>
      cases b with
      | false =>
        have hred : fallbackAddMessages h (m :: rest) st = (st2, false) := by
          simp [fallbackAddMessages, hb]
        refine ⟨1, by simp, ?_, ?_⟩
        · rw [hred]
          simp [applyMessages, hb]
        · intro hTrue
          rw [hred] at hTrue
          cases hTrue
      | true =>
        have hred : fallbackAddMessages h (m :: rest) st = fallbackAddMessages h rest st2 := by
          simp [fallbackAddMessages, hb]
        obtain ⟨k, hk, hst, hflag⟩ := ih st2
        refine ⟨k + 1, by simpa using Nat.succ_le_succ hk, ?_, ?_⟩
        · rw [hred, hst]
          simp [applyMessages, hb]
        · intro hTrue
          rw [hred] at hTrue
          simp [hflag hTrue]

/-- Counterexample to claim C1 as stated: with a backing history lacking a
native batch append, a two-message batch whose second append throws leaves the
first message persisted — the append fails yet the stored transcript changed. -/
theorem addMessages_not_atomic :
    (ChatHistoryAdapter.addMessages boomHistory
      [HumanMessage "hello", HumanMessage "boom"] []).2 = false ∧
    (ChatHistoryAdapter.addMessages boomHistory
      [HumanMessage "hello", HumanMessage "boom"] []).1 ≠ [] :=
  ⟨rfl, fun h => List.noConfusion h⟩

/-- Claim C1 as amended: ChatHistoryAdapter.addMessages forwards the whole
batch in a single call when the backing history has a native addMessages, so
atomicity is whatever that implementation provides; otherwise it appends the
converted messages one addMessage call at a time, and the stored transcript
ends as the fold of the first k per-message mutations for some k — k covers
the whole batch whenever the append reports success, but on a mid-batch
failure the earlier appends remain persisted. -/
theorem addMessages_batch_behavior (h : ChatHistoryImpl) (messages : List LCMessage)
    (st : List Message) :
    (∀ f, h.addMessages = some f →
      ChatHistoryAdapter.addMessages h messages st =
        f (messages.map langChainMessageToSdk) st) ∧
    (h.addMessages = none →
      ∃ k, k ≤ messages.length ∧
        (ChatHistoryAdapter.addMessages h messages st).1 =
          applyMessages h ((messages.map langChainMessageToSdk).take k) st ∧
        ((ChatHistoryAdapter.addMessages h messages st).2 = true → k = messages.length)) := by
  constructor
  · intro f hf
    simp [ChatHistoryAdapter.addMessages, addMessagesFn, hf]
  · intro hn
    have hfn : ChatHistoryAdapter.addMessages h messages st =
        fallbackAddMessages h (messages.map langChainMessageToSdk) st := by
      simp [ChatHistoryAdapter.addMessages, addMessagesFn, hn]
    obtain ⟨k, hk, hst, hflag⟩ :=
      fallbackAddMessages_take h (messages.map langChainMessageToSdk) st
    refine ⟨k, by simpa using hk, ?_, ?_⟩
    · rw [hfn]
      exact hst
    · intro ht
      rw [hfn] at ht
      simpa using hflag ht

/-- Witness for claim C1 at the boom history and a failing two-message batch. -/
theorem addMessages_batch_behavior_witness :
    ∃ k, k ≤ ([HumanMessage "a", HumanMessage "boom"] : List LCMessage).length ∧
      (ChatHistoryAdapter.addMessages boomHistory
        [HumanMessage "a", HumanMessage "boom"] []).1 =
        applyMessages boomHistory
          (([HumanMessage "a", HumanMessage "boom"].map langChainMessageToSdk).take k) [] ∧
      ((ChatHistoryAdapter.addMessages boomHistory
        [HumanMessage "a", HumanMessage "boom"] []).2 = true →
        k = ([HumanMessage "a", HumanMessage "boom"] : List LCMessage).length) :=
  (addMessages_batch_behavior boomHistory [HumanMessage "a", HumanMessage "boom"] []).2 rfl

/-- Counterexample to claim C2 as stated: an adapter whose pluggable stream
yields the single delta B while its generate returns the text A together with
a tool call, usage and a finish reason; the streaming aggregate does not match
the non-streaming result. -/
theorem stream_not_equivalent_to_generate :
    ¬ streamAggregatesToGenerate streamMismatchAdapter [] {} := by
  intro hcl
  have h1 : ChatModelAdapter.generate streamMismatchAdapter [] {} =
      Except.ok (convertToLangChainResult sampleResult "m") := rfl
  have h2 : ChatModelAdapter.streamResponseChunks streamMismatchAdapter [] {} =
      Except.ok [{ message := { content := "B" }, text := "B" }] := rfl
  obtain ⟨g, hg, htext, -, -, -⟩ := hcl _ _ h1 h2
  have h4 : ("A" : String) = g.text := by
    have h3 := congrArg (fun l => l.map ChatGeneration.text) hg
    simpa [convertToLangChainResult, sampleResult] using h3
  rw [← h4] at htext
  exact absurd htext (by decide)

/-- Claim C2 as amended: without a configured stream function the streaming
entry point yields exactly one chunk whose text is the non-streaming text;
with one, the chunk texts are exactly the truthy text deltas of the pluggable
stream function (an independent function, unconstrained by generate); and in
both cases every yielded chunk carries only text — no tool call chunks, no
usage metadata and no finish reason — so the tool calls, usage and finish
reason of the non-streaming result shape are not carried by the aggregate. -/
theorem streamResponseChunks_shape (a : ChatModelAdapter) (messages : List LCMessage)
    (options : ParsedCallOptions) :
    (a.options.stream = none → ∀ res, a.generate messages options = Except.ok res →
      a.streamResponseChunks messages options =
        Except.ok
          [{ message := { content := ((res.generations.head?).map ChatGeneration.text).getD "" },
             text := ((res.generations.head?).map ChatGeneration.text).getD "" }]) ∧
    (∀ f, a.options.stream = some f →
      ∀ chunks, a.streamResponseChunks messages options = Except.ok chunks →
        chunks.map ChatGenerationChunk.text =
          (f ((messages.map convertToSdkMessages).flatten)
            (buildCallConfig options a.boundTools)).filterMap
            (fun chunk =>
              match chunk.type, chunk.textDelta with
              | ChunkType.textDelta, some d => if d = "" then none else some d
              | _, _ => none)) ∧
    (∀ chunks, a.streamResponseChunks messages options = Except.ok chunks →
      ∀ c ∈ chunks, c.message.tool_call_chunks = [] ∧ c.message.usage_metadata = none ∧
        c.generationInfo_finishReason = none ∧ c.message.content = c.text) := by
  refine ⟨?_, ?_, ?_⟩
  · intro hnone res hres
    simp [ChatModelAdapter.streamResponseChunks, hnone, hres]
  · intro f hf chunks hok
    simp only [ChatModelAdapter.streamResponseChunks, hf, Except.ok.injEq] at hok
    subst hok
    rw [List.map_filterMap]
    have hfun : (fun ch : StreamChunk =>
        (match ch.type, ch.textDelta with
          | ChunkType.textDelta, some d =>
            if d = "" then none
            else some ({ message := { content := d }, text := d } : ChatGenerationChunk)
          | _, _ => none).map ChatGenerationChunk.text) =
        (fun chunk : StreamChunk =>
          match chunk.type, chunk.textDelta with
          | ChunkType.textDelta, some d => if d = "" then none else some d
          | _, _ => none) := by
      funext ch
      cases h1 : ch.type <;> cases h2 : ch.textDelta <;> simp [h1, h2]
      split <;> simp
    rw [hfun]
  · intro chunks hok c hc
    cases hstream : a.options.stream with
    | none =>
      cases hgen : a.generate messages options with
      | error e => simp [ChatModelAdapter.streamResponseChunks, hstream, hgen] at hok
      | ok res =>
        simp only [ChatModelAdapter.streamResponseChunks, hstream, hgen,
          Except.ok.injEq] at hok
        subst hok
        simp only [List.mem_singleton] at hc
        subst hc
        exact ⟨rfl, rfl, rfl, rfl⟩
    | some f =>
      simp only [ChatModelAdapter.streamResponseChunks, hstream, Except.ok.injEq] at hok
      subst hok
      rcases List.mem_filterMap.mp hc with ⟨ch, hch, hmk⟩
      cases h1 : ch.type <;> rw [h1] at hmk
      case textDelta =>
        cases h2 : ch.textDelta <;> rw [h2] at hmk
        case none => exact Option.noConfusion hmk
        case some d =>
          dsimp only at hmk
          by_cases hd : d = ""
          · rw [if_pos hd] at hmk
            exact Option.noConfusion hmk
          · rw [if_neg hd] at hmk
            obtain rfl :
                ({ message := { content := d }, text := d } : ChatGenerationChunk) = c :=
              Option.some.inj hmk
            exact ⟨rfl, rfl, rfl, rfl⟩
      case toolCallDelta => exact Option.noConfusion hmk
      case finish => exact Option.noConfusion hmk
      case error => exact Option.noConfusion hmk

/-- Witness for claim C2 at the fallback-only fixture: with no stream function
configured, the streaming entry point yields exactly one chunk carrying the
non-streaming text. -/
theorem streamResponseChunks_shape_witness :
    ChatModelAdapter.streamResponseChunks fallbackOnlyAdapter [] {} =
      Except.ok [{ message := { content := "hello" }, text := "hello" }] :=
  (streamResponseChunks_shape fallbackOnlyAdapter [] {}).1 rfl
    (convertToLangChainResult { text := "hello" } "m") rfl
